import Mathlib

/-!
Shallow embedding of the ARQ ping protocol core of `src/usrp-legacy/iqpr/ping.cc`
(function `main`).  The control state of the two roles is made explicit; the radio
transport is modelled as a stream of poll results, one entry per call to
`iqpr_rxpacket`.  Machine integers (`unsigned int`, `unsigned char`) are embedded
as `Nat` resp. `Fin 256`; the one place where unsigned wrap-around matters
(`num_packets - 1` in the slave loop condition) carries an explicit `% 2 ^ 32`.
-/

namespace Ping

/-- Packet type byte for DATA frames (`PING_PACKET_DATA`, ping.cc line 52). -/
def PING_PACKET_DATA : Nat := 59

/-- Packet type byte for ACK frames (`PING_PACKET_ACK`, ping.cc line 53). -/
def PING_PACKET_ACK : Nat := 77

/-- Run configuration of ping.cc (lines 76-88): `num_packets`, `max_num_attempts`,
`tx_payload_len`, `ack_timeout` (us), and the receive poll quantum `timespec`
(line 136, the constant 1000 us).  The source fixes `timespec` to a positive
constant; `timespec_pos` records that well-formedness so the await loop
terminates. -/
structure Params where
  num_packets : Nat
  max_num_attempts : Nat
  tx_payload_len : Nat
  ack_timeout : Nat
  timespec : Nat
  timespec_pos : 0 < timespec

/-- Default run configuration: `num_packets = 100`, `max_num_attempts = 500`,
`tx_payload_len = 200`, `ack_timeout = 240000` us, `timespec = 1000` us
(ping.cc lines 76, 81, 82, 87, 136). -/
def default_params : Params :=
  ⟨100, 500, 200, 240000, 1000, by norm_num⟩

/-- Result of one `iqpr_rxpacket` poll (ping.cc lines 216-222 / 280-287): a found
flag, the 8 header bytes, the header checksum verdict, the payload length and the
payload checksum verdict.  Link statistics are reporting-only and omitted. -/
structure RxPacket where
  packet_received : Bool
  rx_header : Fin 8 → Fin 256
  rx_header_valid : Bool
  rx_payload_len : Nat
  rx_payload_valid : Bool

/-- Packet id decoded from a header, `(rx_header[0] << 8) | rx_header[1]`
(ping.cc lines 227 and 302). -/
def rx_pid_of (h : Fin 8 → Fin 256) : Nat :=
  ((h 0).val <<< 8) ||| (h 1).val

/-- DATA header built by the master (ping.cc lines 181-185):
`tx_header[0] = (tx_pid >> 8) & 0xff`, `tx_header[1] = tx_pid & 0xff`,
`tx_header[2] = PING_PACKET_DATA`, bytes 3-7 are random fill. -/
def mk_tx_header (tx_pid : Nat) (fill : Fin 8 → Fin 256) : Fin 8 → Fin 256 :=
  fun n =>
    if n.val = 0 then ⟨(tx_pid >>> 8) &&& 255, Nat.lt_succ_of_le Nat.and_le_right⟩
    else if n.val = 1 then ⟨tx_pid &&& 255, Nat.lt_succ_of_le Nat.and_le_right⟩
    else if n.val = 2 then ⟨PING_PACKET_DATA, by norm_num [PING_PACKET_DATA]⟩
    else fill n

/-- ACK header built by the slave (ping.cc lines 329-333): the two id bytes are
copied from the accepted DATA header, `tx_header[2] = PING_PACKET_ACK`, bytes
3-7 are random fill. -/
def mk_ack_header (rxh fill : Fin 8 → Fin 256) : Fin 8 → Fin 256 :=
  fun n =>
    if n.val = 0 then rxh 0
    else if n.val = 1 then rxh 1
    else if n.val = 2 then ⟨PING_PACKET_ACK, by norm_num [PING_PACKET_ACK]⟩
    else fill n

/-- Master-side acceptance of a polled packet as the awaited ACK (ping.cc lines
226-246): a packet must have been received, the header must be valid, the type
byte must be `PING_PACKET_ACK`, the payload must be valid, and the decoded id
must equal the outstanding `tx_pid`; `ack_received` is set only in the final
branch of the classification chain. -/
def master_accept (f : RxPacket) (tx_pid : Nat) : Bool :=
  f.packet_received && f.rx_header_valid &&
    ((f.rx_header 2).val == PING_PACKET_ACK) && f.rx_payload_valid &&
    (rx_pid_of f.rx_header == tx_pid)

/-- Await-acknowledgement loop of the master (ping.cc lines 211-249):
`while (!ack_received && timer < ack_timeout)` poll once, add `timespec` to the
timer regardless of the actual poll duration, and classify the packet.  `i` is
the index of the next entry of the poll stream; the returned pair is the index
after the loop and the final `ack_received` flag. -/
def await_ack_loop (P : Params) (polls : Nat → RxPacket) (tx_pid i timer : Nat) :
    Nat × Bool :=
  if timer < P.ack_timeout then
    if master_accept (polls i) tx_pid then (i + 1, true)
    else await_ack_loop P polls tx_pid (i + 1) (timer + P.timespec)
  else (i, false)
termination_by P.ack_timeout - timer
decreasing_by have := P.timespec_pos; omega

/-- Transmission-attempt loop of the master for one packet id (ping.cc lines
194-260): `do { num_attempts++; send; await ack } while (!ack_received &&
num_attempts < max_num_attempts)`.  Each iteration performs exactly one
transmission, so the returned attempt counter is also the number of sends for
this id.  Returns the next poll index, the final `num_attempts` and the final
`ack_received` flag. -/
def tx_attempt_loop (P : Params) (polls : Nat → RxPacket) (tx_pid i num_attempts : Nat) :
    Nat × Nat × Bool :=
  match await_ack_loop P polls tx_pid i 0 with
  | (i2, true) => (i2, num_attempts + 1, true)
  | (i2, false) =>
    if h : num_attempts + 1 < P.max_num_attempts then
      tx_attempt_loop P polls tx_pid i2 (num_attempts + 1)
    else (i2, num_attempts + 1, false)
termination_by P.max_num_attempts - num_attempts
decreasing_by omega

/-- Outcome of one master packet id: the id, the number of attempts made for it
(equals the number of transmissions of the id) and whether an ACK was accepted. -/
structure PacketOutcome where
  pid : Nat
  attempts : Nat
  acked : Bool
deriving DecidableEq

/-- Result of a master run: the per-id outcomes in order, the final
`num_bytes_received`, and whether the run ended through the
`num_attempts == max_num_attempts` bail check (ping.cc lines 262-265). -/
structure MasterResult where
  outcomes : List PacketOutcome
  num_bytes_received : Nat
  bailed : Bool
deriving DecidableEq

/-- Master packet loop (ping.cc lines 178-266): `for (tx_pid=0; tx_pid<num_packets;
tx_pid++)` run the attempt loop for `tx_pid`; on `ack_received` add
`tx_payload_len` to `num_bytes_received` (line 253); afterwards, if
`num_attempts == max_num_attempts` (line 262) the run bails -- note the source
performs this check whether or not the last attempt was acknowledged. -/
def master_node_loop (P : Params) (polls : Nat → RxPacket) (tx_pid i : Nat) :
    MasterResult :=
  if tx_pid < P.num_packets then
    match tx_attempt_loop P polls tx_pid i 0 with
    | (i2, na, ack) =>
      if na = P.max_num_attempts then
        ⟨[⟨tx_pid, na, ack⟩], if ack then P.tx_payload_len else 0, true⟩
      else
        match master_node_loop P polls (tx_pid + 1) i2 with
        | rest =>
          ⟨⟨tx_pid, na, ack⟩ :: rest.outcomes,
           (if ack then P.tx_payload_len else 0) + rest.num_bytes_received,
           rest.bailed⟩
  else ⟨[], 0, false⟩
termination_by P.num_packets - tx_pid
decreasing_by omega

/-- Slave control state: the persistent `rx_pid` variable (ping.cc line 143,
initialised to 0 and only overwritten at line 302) and `num_bytes_received`. -/
structure SlaveState where
  rx_pid : Nat
  num_bytes_received : Nat
deriving DecidableEq

/-- The value the slave loop condition compares `rx_pid` against:
`num_packets - 1` in `unsigned int` arithmetic (ping.cc line 346). -/
def slave_terminal_pid (P : Params) : Nat :=
  (P.num_packets + 2 ^ 32 - 1) % 2 ^ 32

/-- One iteration of the slave loop body for a found packet (ping.cc lines
290-346).  The three `continue` statements jump to the `do ... while
(rx_pid != num_packets-1)` condition, so every branch ends with the loop
condition evaluated on the current `rx_pid`; `rx_pid` is overwritten (line 302)
only after the header-validity and type checks have passed.  Returns the new
state, the ACK header transmitted (if any), and whether the loop condition
failed, i.e. the session terminates. -/
def slave_step (P : Params) (s : SlaveState) (f : RxPacket) (fill : Fin 8 → Fin 256) :
    SlaveState × Option (Fin 8 → Fin 256) × Bool :=
  if !f.rx_header_valid then
    (s, none, s.rx_pid == slave_terminal_pid P)
  else if (f.rx_header 2).val ≠ PING_PACKET_DATA then
    (s, none, s.rx_pid == slave_terminal_pid P)
  else if !f.rx_payload_valid then
    (⟨rx_pid_of f.rx_header, s.num_bytes_received⟩, none,
     rx_pid_of f.rx_header == slave_terminal_pid P)
  else
    (⟨rx_pid_of f.rx_header, s.num_bytes_received + f.rx_payload_len⟩,
     some (mk_ack_header f.rx_header fill),
     rx_pid_of f.rx_header == slave_terminal_pid P)

/-- Division as performed by the statistics code, made explicit as a fallible
operation: `none` means the division is reached with a zero divisor.  The
source works in `float`; the exact value of a well-defined quotient is embedded
in `ℚ`. -/
def stats_div (a b : ℚ) : Option ℚ :=
  if b = 0 then none else some (a / b)

/-- End-of-run statistics computation (ping.cc lines 360-363):
`data_rate = 8 * num_bytes_received / runtime` and
`spectral_efficiency = data_rate / bandwidth`, both computed unconditionally. -/
def compute_stats (num_bytes : Nat) (runtime bandwidth : ℚ) : Option (ℚ × ℚ) :=
  match stats_div (8 * num_bytes) runtime with
  | none => none
  | some data_rate =>
    match stats_div data_rate bandwidth with
    | none => none
    | some spectral => some (data_rate, spectral)

/-- Modelled from the spec (section 4.4), which describes a guard that is absent
from ping.cc: on a zero elapsed time the rate is reported as zero rather than
the division being performed. -/
def compute_stats_guarded (num_bytes : Nat) (runtime bandwidth : ℚ) : Option (ℚ × ℚ) :=
  if runtime = 0 then some (0, 0)
  else compute_stats num_bytes runtime bandwidth


/-! Concrete test vectors used by the closed evaluation theorems and witnesses. -/

/-- Concrete 8-byte header with given first three bytes and zero fill. -/
def test_header (b0 b1 b2 : Fin 256) : Fin 8 → Fin 256 :=
  fun n => if n.val = 0 then b0 else if n.val = 1 then b1 else if n.val = 2 then b2 else 0

/-- Valid ACK packet carrying id 0. -/
def test_ack0 : RxPacket := ⟨true, test_header 0 0 77, true, 10, true⟩

/-- Valid ACK packet carrying id 1. -/
def test_ack1 : RxPacket := ⟨true, test_header 0 1 77, true, 10, true⟩

/-- Poll result with no packet found. -/
def test_silent : RxPacket := ⟨false, test_header 0 0 0, false, 0, false⟩

/-- Tiny master configuration: 2 packets, 1 attempt, timeout 2, quantum 1. -/
def test_P1 : Params := ⟨2, 1, 200, 2, 1, by norm_num⟩

/-- Poll stream that always returns a valid ACK for id 0. -/
def test_polls_ack0 : Nat → RxPacket := fun _ => test_ack0

/-- Poll stream that never returns a packet. -/
def test_polls_silent : Nat → RxPacket := fun _ => test_silent

/-- Slave configuration with 5 expected packets and source defaults otherwise. -/
def test_P2 : Params := ⟨5, 500, 200, 240000, 1000, by norm_num⟩

/-- DATA packet carrying id 4 with valid header but invalid payload. -/
def test_data4_badpayload : RxPacket := ⟨true, test_header 0 4 59, true, 200, false⟩

/-- Master configuration: 2 packets, 2 attempts, timeout 1, quantum 1. -/
def test_P3 : Params := ⟨2, 2, 200, 1, 1, by norm_num⟩

/-- Poll stream whose first entry acknowledges id 0 and later entries id 1. -/
def test_polls_alt : Nat → RxPacket := fun i => if i = 0 then test_ack0 else test_ack1

/-- Master configuration: 1 packet, 4 attempts, timeout 2, quantum 1. -/
def test_P7 : Params := ⟨1, 4, 200, 2, 1, by norm_num⟩

/-- Poll stream that is silent for the first await window (2 polls) and then
returns a valid ACK for id 0. -/
def test_polls_dropfirst : Nat → RxPacket := fun i => if i < 2 then test_silent else test_ack0

/-- Configuration with more packets than the 16-bit id space. -/
def test_P9 : Params := ⟨70000, 500, 200, 240000, 1000, by norm_num⟩

/-- Degenerate master configuration with `max_num_attempts = 0` (reachable in the
source via the `-A 0` option): 2 packets, 0 attempts allowed, timeout 2,
quantum 1. -/
def test_P3_zero : Params := ⟨2, 0, 200, 2, 1, by norm_num⟩

/-! Helper lemmas about the embedded definitions, shared by the claim theorems. -/

theorem rx_pid_of_eq (h : Fin 8 → Fin 256) :
    rx_pid_of h = (h 0).val * 256 + (h 1).val := by
  unfold rx_pid_of
  rw [Nat.shiftLeft_eq]
  rw [show (h 0).val * 2 ^ 8 = 2 ^ 8 * (h 0).val from Nat.mul_comm _ _]
  rw [← Nat.mul_add_lt_is_or (h 1).isLt]
  ring

theorem rx_pid_of_lt (h : Fin 8 → Fin 256) : rx_pid_of h < 65536 := by
  rw [rx_pid_of_eq]
  have h0 := (h 0).isLt
  have h1 := (h 1).isLt
  omega

theorem mk_tx_header_decode (tx_pid : Nat) (fill : Fin 8 → Fin 256) :
    rx_pid_of (mk_tx_header tx_pid fill) = tx_pid % 65536 := by
  rw [rx_pid_of_eq]
  show (mk_tx_header tx_pid fill 0).val * 256 + (mk_tx_header tx_pid fill 1).val = _
  simp only [mk_tx_header]
  norm_num
  rw [show (255 : Nat) = 2 ^ 8 - 1 from rfl, Nat.and_pow_two_sub_one_eq_mod,
    Nat.and_pow_two_sub_one_eq_mod, Nat.shiftRight_eq_div_pow]
  omega

theorem ceil_div_succ (a q : Nat) (hq : 0 < q) (ha : 0 < a) :
    (a + q - 1) / q = (a - q + q - 1) / q + 1 := by
  by_cases hc : a ≤ q
  · have h1 : a - q = 0 := by omega
    rw [h1]
    have h2 : a + q - 1 = (a - 1) + q := by omega
    rw [h2, Nat.add_div_right _ hq]
    have h3 : (a - 1) / q = 0 := Nat.div_eq_of_lt (by omega)
    have h4 : (0 + q - 1) / q = 0 := Nat.div_eq_of_lt (by omega)
    omega
  · have h2 : a + q - 1 = (a - 1) + q := by omega
    rw [h2, Nat.add_div_right _ hq]
    have h5 : a - q + q - 1 = (a - q - 1) + q := by omega
    rw [h5, Nat.add_div_right _ hq]
    have h6 : a - 1 = (a - q - 1) + q := by omega
    rw [h6, Nat.add_div_right _ hq]


theorem await_ack_loop_timeout (P : Params) (polls : Nat → RxPacket) (tx_pid : Nat) :
    ∀ k i timer,
      P.ack_timeout - timer ≤ k →
      (∀ j, j < (P.ack_timeout - timer + P.timespec - 1) / P.timespec →
        master_accept (polls (i + j)) tx_pid = false) →
      await_ack_loop P polls tx_pid i timer =
        (i + (P.ack_timeout - timer + P.timespec - 1) / P.timespec, false) := by
  have hq := P.timespec_pos
  intro k
  induction k with
  | zero =>
    intro i timer hk _
    have ht : ¬ timer < P.ack_timeout := by omega
    have h1 : P.ack_timeout - timer = 0 := by omega
    have h2 : (P.ack_timeout - timer + P.timespec - 1) / P.timespec = 0 := by
      rw [h1]; exact Nat.div_eq_of_lt (by omega)
    rw [await_ack_loop, if_neg ht, h2]
    rfl
  | succ k ih =>
    intro i timer hk hnone
    by_cases ht : timer < P.ack_timeout
    · have hsub : P.ack_timeout - (timer + P.timespec)
          = P.ack_timeout - timer - P.timespec := by omega
      have hcnt : (P.ack_timeout - timer + P.timespec - 1) / P.timespec
          = (P.ack_timeout - (timer + P.timespec) + P.timespec - 1) / P.timespec + 1 := by
        rw [hsub]
        have ha : 0 < P.ack_timeout - timer := by omega
        exact ceil_div_succ (P.ack_timeout - timer) P.timespec hq ha
      have h0 : master_accept (polls i) tx_pid = false := by
        have hpos : 0 < (P.ack_timeout - timer + P.timespec - 1) / P.timespec := by
          rw [hcnt]; exact Nat.succ_pos _
        have h00 := hnone 0 hpos
        simpa using h00
      have hshift : ∀ j, j < (P.ack_timeout - (timer + P.timespec) + P.timespec - 1) / P.timespec →
          master_accept (polls (i + 1 + j)) tx_pid = false := by
        intro j hj
        have hj2 : j + 1 < (P.ack_timeout - timer + P.timespec - 1) / P.timespec := by
          rw [hcnt]; exact Nat.succ_lt_succ hj
        have h01 := hnone (j + 1) hj2
        have harg : i + 1 + j = i + (j + 1) := by omega
        rw [harg]
        exact h01
      have hk2 : P.ack_timeout - (timer + P.timespec) ≤ k := by omega
      have hrec := ih (i + 1) (timer + P.timespec) hk2 hshift
      rw [await_ack_loop, if_pos ht, h0]
      simp only [Bool.false_eq_true, if_false]
      rw [hrec]
      simp only [Prod.mk.injEq]
      refine ⟨?_, trivial⟩
      rw [hcnt]
      ring
    · have h1 : P.ack_timeout - timer = 0 := by omega
      have h2 : (P.ack_timeout - timer + P.timespec - 1) / P.timespec = 0 := by
        rw [h1]; exact Nat.div_eq_of_lt (by omega)
      rw [await_ack_loop, if_neg ht, h2]
      rfl

theorem await_ack_loop_first_accept (P : Params) (polls : Nat → RxPacket) (tx_pid : Nat) :
    ∀ j0 i timer,
      (∀ j, j < j0 → master_accept (polls (i + j)) tx_pid = false) →
      master_accept (polls (i + j0)) tx_pid = true →
      timer + j0 * P.timespec < P.ack_timeout →
      await_ack_loop P polls tx_pid i timer = (i + j0 + 1, true) := by
  intro j0
  induction j0 with
  | zero =>
    intro i timer _ hacc ht
    have ht0 : timer < P.ack_timeout := by omega
    have h0 : master_accept (polls i) tx_pid = true := by simpa using hacc
    rw [await_ack_loop, if_pos ht0, h0]
    simp
  | succ j0 ih =>
    intro i timer hnone hacc ht
    have hmul : (j0 + 1) * P.timespec = j0 * P.timespec + P.timespec := Nat.succ_mul _ _
    have ht0 : timer < P.ack_timeout := by omega
    have h0 : master_accept (polls i) tx_pid = false := by
      have h00 := hnone 0 (by omega)
      simpa using h00
    have hshift : ∀ j, j < j0 → master_accept (polls (i + 1 + j)) tx_pid = false := by
      intro j hj
      have h01 := hnone (j + 1) (by omega)
      have harg : i + 1 + j = i + (j + 1) := by omega
      rw [harg]
      exact h01
    have hacc2 : master_accept (polls (i + 1 + j0)) tx_pid = true := by
      have harg : i + 1 + j0 = i + (j0 + 1) := by omega
      rw [harg]
      exact hacc
    have hrec := ih (i + 1) (timer + P.timespec) hshift hacc2 (by omega)
    rw [await_ack_loop, if_pos ht0, h0]
    simp only [Bool.false_eq_true, if_false]
    rw [hrec]
    simp only [Prod.mk.injEq]
    exact ⟨by omega, trivial⟩



theorem tx_attempt_loop_inv (P : Params) (polls : Nat → RxPacket) (tx_pid : Nat) :
    ∀ k i num_attempts,
      P.max_num_attempts - num_attempts ≤ k →
      num_attempts < P.max_num_attempts →
      ∀ r, tx_attempt_loop P polls tx_pid i num_attempts = r →
        num_attempts < r.2.1 ∧ r.2.1 ≤ P.max_num_attempts ∧
        (r.2.2 = false → r.2.1 = P.max_num_attempts) := by
  intro k
  induction k with
  | zero =>
    intro i a hk ha
    omega
  | succ k ih =>
    intro i a hk ha r hr
    rw [tx_attempt_loop] at hr
    rcases hA : await_ack_loop P polls tx_pid i 0 with ⟨i2, ack⟩
    rw [hA] at hr
    cases ack with
    | true =>
      simp only [] at hr
      subst hr
      dsimp only
      refine ⟨by omega, by omega, ?_⟩
      intro hfalse
      simp at hfalse
    | false =>
      simp only [] at hr
      by_cases hlt : a + 1 < P.max_num_attempts
      · rw [dif_pos hlt] at hr
        obtain ⟨h1, h2, h3⟩ := ih i2 (a + 1) (by omega) hlt r hr
        exact ⟨by omega, h2, h3⟩
      · rw [dif_neg hlt] at hr
        subst hr
        dsimp only
        exact ⟨by omega, by omega, fun _ => by omega⟩



theorem master_node_loop_inv (P : Params) (polls : Nat → RxPacket)
    (hmax : 1 ≤ P.max_num_attempts) :
    ∀ k tx_pid i, P.num_packets - tx_pid ≤ k →
      ∀ j o, (master_node_loop P polls tx_pid i).outcomes[j]? = some o →
        o.pid = tx_pid + j ∧ 1 ≤ o.attempts ∧ o.attempts ≤ P.max_num_attempts ∧
        ((master_node_loop P polls tx_pid i).outcomes[j + 1]?.isSome = true →
          o.acked = true ∧ o.attempts < P.max_num_attempts) ∧
        (o.acked = false → (master_node_loop P polls tx_pid i).outcomes[j + 1]? = none) := by
  intro k
  induction k with
  | zero =>
    intro tx_pid i hk j o ho
    have hge : ¬ tx_pid < P.num_packets := by omega
    rw [master_node_loop, if_neg hge] at ho
    simp at ho
  | succ k ih =>
    intro tx_pid i hk j o ho
    by_cases hlt : tx_pid < P.num_packets
    · rcases hA : tx_attempt_loop P polls tx_pid i 0 with ⟨i2, na, ack⟩
      have hinv := tx_attempt_loop_inv P polls tx_pid (P.max_num_attempts) i 0
        (by omega) (by omega) _ hA
      dsimp only at hinv
      rw [master_node_loop, if_pos hlt, hA] at ho ⊢
      simp only [] at ho ⊢
      by_cases hbail : na = P.max_num_attempts
      · rw [if_pos hbail] at ho ⊢
        dsimp only at ho ⊢
        match j with
        | 0 =>
          rw [List.getElem?_cons_zero] at ho
          have ho2 : o = ⟨tx_pid, na, ack⟩ := by
            exact (Option.some_inj.mp ho).symm
          subst ho2
          dsimp only
          refine ⟨by omega, by omega, by omega, ?_, ?_⟩
          · intro habs
            simp at habs
          · intro _
            simp
        | j' + 1 =>
          rw [List.getElem?_cons_succ] at ho
          simp at ho
      · rw [if_neg hbail] at ho ⊢
        dsimp only at ho ⊢
        match j with
        | 0 =>
          rw [List.getElem?_cons_zero] at ho
          have ho2 : o = ⟨tx_pid, na, ack⟩ := by
            exact (Option.some_inj.mp ho).symm
          subst ho2
          dsimp only
          have hack : ack = true := by
            rcases hinv with ⟨h1, h2, h3⟩
            cases ack with
            | true => rfl
            | false => exact absurd (h3 rfl) hbail
          refine ⟨by omega, by omega, by omega, ?_, ?_⟩
          · intro _
            exact ⟨hack, by omega⟩
          · intro habs
            rw [hack] at habs
            simp at habs
        | j' + 1 =>
          rw [List.getElem?_cons_succ] at ho ⊢
          exact ih (tx_pid + 1) i2 (by omega) j' o ho |>.imp
            (fun h => by omega) (fun h => h)
    · rw [master_node_loop, if_neg hlt] at ho
      simp at ho


theorem master_accept_pid (f : RxPacket) (tx_pid : Nat)
    (h : master_accept f tx_pid = true) : rx_pid_of f.rx_header = tx_pid := by
  simp [master_accept] at h
  tauto

theorem mk_ack_header_pid (rxh fill : Fin 8 → Fin 256) :
    rx_pid_of (mk_ack_header rxh fill) = rx_pid_of rxh := by
  rw [rx_pid_of_eq, rx_pid_of_eq]
  simp [mk_ack_header]

/-! Claim theorems. -/

/-- Claim C1, behaviour of the code at the failing input: with `max_num_attempts = 1`
and a transport that acknowledges id 0 on the very first poll, the master run still
bails after packet 0 (the line 262 check `num_attempts == max_num_attempts` ignores
`ack_received`), so packet id 1 is never attempted even though every id would be
acknowledged within the allowed attempts.  The claim states the run would continue
to the next id; the code aborts. -/
theorem claim_C1_run :
    master_node_loop test_P1 test_polls_ack0 0 0 = ⟨[⟨0, 1, true⟩], 200, true⟩ := by
  simp [master_node_loop, tx_attempt_loop, await_ack_loop, master_accept, test_P1,
    test_polls_ack0, test_ack0, test_header, rx_pid_of, PING_PACKET_ACK,
    show ((77 : Fin 256)).val = 77 from rfl]

/-- Claim C2, behaviour of the code at the failing input: a DATA frame with id 4 and
an invalid payload arrives at a slave expecting 5 packets.  No ACK is sent and
`num_bytes_received` is unchanged, but -- contrary to the claim -- the `continue`
jumps to the loop condition, which is evaluated with the freshly stored id 4 equal
to `num_packets - 1`, so the session terminates instead of continuing to poll. -/
theorem claim_C2_run :
    slave_step test_P2 ⟨0, 0⟩ test_data4_badpayload (test_header 0 0 0)
      = (⟨4, 0⟩, none, true) := rfl

/-- Claim C3, counterexample to the unqualified statement: with
`max_num_attempts = 0` (option `-A 0`) and a silent transport, the do-while gives
id 0 one attempt anyway, its budget is exhausted without an ACK, yet the bail
check `num_attempts == max_num_attempts` (1 == 0) never fires, so the master
still attempts id 1 -- and the run even ends without bailing.  The claim says no
further packet id is ever attempted after an exhausted budget. -/
theorem claim_C3_cex :
    master_node_loop test_P3_zero test_polls_silent 0 0
      = ⟨[⟨0, 1, false⟩, ⟨1, 1, false⟩], 0, false⟩ := by
  simp [master_node_loop, tx_attempt_loop, await_ack_loop, master_accept, test_P3_zero,
    test_polls_silent, test_silent, test_header, rx_pid_of, PING_PACKET_ACK]

/-- Claim C3 as amended: for every master run with `max_num_attempts` at least 1
(the source default is 500; the degenerate `max_num_attempts = 0` configuration
of the counterexample is the sole exception), the master never begins id `j + 1`
until the outcome for id `j` was an accepted ACK within the attempt budget, and
an id whose budget was exhausted without an ACK is the last id of the run;
outcome `j` of the run carries packet id `j`. -/
theorem claim_C3 (P : Params) (polls : Nat → RxPacket)
    (hmax : 1 ≤ P.max_num_attempts) (j : Nat) (o o2 : PacketOutcome)
    (ho : (master_node_loop P polls 0 0).outcomes[j]? = some o) :
    o.pid = j
    ∧ (o.acked = false → (master_node_loop P polls 0 0).outcomes[j + 1]? = none)
    ∧ ((master_node_loop P polls 0 0).outcomes[j + 1]? = some o2 →
        o.acked = true ∧ o.attempts < P.max_num_attempts) := by
  obtain ⟨h1, h2, h3, h4, h5⟩ :=
    master_node_loop_inv P polls hmax P.num_packets 0 0 (by omega) j o ho
  refine ⟨by omega, h5, ?_⟩
  intro h6
  exact h4 (by rw [h6]; rfl)

/-- Witness for claim C3 on a concrete two-packet run in which both ids are
acknowledged on the first attempt. -/
theorem claim_C3_witness :
    1 ≤ test_P3.max_num_attempts
    ∧ (master_node_loop test_P3 test_polls_alt 0 0).outcomes[0]? = some ⟨0, 1, true⟩
    ∧ (⟨0, 1, true⟩ : PacketOutcome).pid = 0
    ∧ ((⟨0, 1, true⟩ : PacketOutcome).acked = true
        ∧ (⟨0, 1, true⟩ : PacketOutcome).attempts < test_P3.max_num_attempts) := by
  have hrun : master_node_loop test_P3 test_polls_alt 0 0
      = ⟨[⟨0, 1, true⟩, ⟨1, 1, true⟩], 400, false⟩ := by
    simp [master_node_loop, tx_attempt_loop, await_ack_loop, master_accept, test_P3,
      test_polls_alt, test_ack0, test_ack1, test_header, rx_pid_of, PING_PACKET_ACK,
      show ((77 : Fin 256)).val = 77 from rfl, show ((1 : Fin 256)).val = 1 from rfl,
      show ((0 : Fin 256)).val = 0 from rfl]
  have h := claim_C3 test_P3 test_polls_alt (by norm_num [test_P3]) 0
    ⟨0, 1, true⟩ ⟨1, 1, true⟩ (by rw [hrun]; rfl)
  exact ⟨by norm_num [test_P3], by rw [hrun]; rfl, h.1, h.2.2 (by rw [hrun]; rfl)⟩

/-- Claim C4: the slave emits an ACK for a received frame exactly when the header is
valid, the type byte is DATA and the payload is valid; a frame failing any of the
three checks produces no ACK. -/
theorem claim_C4 (P : Params) (s : SlaveState) (f : RxPacket) (fill : Fin 8 → Fin 256) :
    ((slave_step P s f fill).2.1).isSome = true ↔
      (f.rx_header_valid = true ∧ (f.rx_header 2).val = PING_PACKET_DATA ∧
        f.rx_payload_valid = true) := by
  unfold slave_step
  by_cases h1 : f.rx_header_valid = true <;>
    by_cases h2 : (f.rx_header 2).val = PING_PACKET_DATA <;>
      by_cases h3 : f.rx_payload_valid = true <;>
        simp [h1, h2, h3]

/-- Claim C5: the ACK the slave builds decodes to exactly the id of the accepted DATA
frame; the master accepts a frame only if its decoded id equals the outstanding id;
the await loop exits immediately on the first accepted poll (so a duplicate ACK is
never consumed in the same window and the master advances exactly once); a
non-accepted frame is ignored and the loop keeps polling. -/
theorem claim_C5 :
    (∀ (P : Params) (s : SlaveState) (f : RxPacket) (fill ackh : Fin 8 → Fin 256),
      (slave_step P s f fill).2.1 = some ackh → rx_pid_of ackh = rx_pid_of f.rx_header)
    ∧ (∀ (f : RxPacket) (tx_pid : Nat),
      master_accept f tx_pid = true → rx_pid_of f.rx_header = tx_pid)
    ∧ (∀ (P : Params) (polls : Nat → RxPacket) (tx_pid i : Nat),
      master_accept (polls i) tx_pid = true → 0 < P.ack_timeout →
      await_ack_loop P polls tx_pid i 0 = (i + 1, true))
    ∧ (∀ (P : Params) (polls : Nat → RxPacket) (tx_pid i timer : Nat),
      master_accept (polls i) tx_pid = false → timer < P.ack_timeout →
      await_ack_loop P polls tx_pid i timer
        = await_ack_loop P polls tx_pid (i + 1) (timer + P.timespec)) := by
  refine ⟨?_, master_accept_pid, ?_, ?_⟩
  · intro P s f fill ackh hsome
    unfold slave_step at hsome
    by_cases h1 : f.rx_header_valid = true
    · by_cases h2 : (f.rx_header 2).val = PING_PACKET_DATA
      · by_cases h3 : f.rx_payload_valid = true
        · simp [h1, h2, h3] at hsome
          rw [← hsome]
          exact mk_ack_header_pid f.rx_header fill
        · simp [h1, h2, h3] at hsome
      · simp [h1, h2] at hsome
    · simp [h1] at hsome
  · intro P polls tx_pid i hacc hT
    rw [await_ack_loop, if_pos hT, hacc]
    simp
  · intro P polls tx_pid i timer hfalse ht
    rw [await_ack_loop, if_pos ht, hfalse]
    simp

/-- Witness for claim C5: a concrete await loop that accepts the matching ACK on its
first poll and stops there. -/
theorem claim_C5_witness :
    master_accept (test_polls_ack0 0) 0 = true ∧ 0 < test_P1.ack_timeout ∧
      await_ack_loop test_P1 test_polls_ack0 0 0 0 = (0 + 1, true) :=
  ⟨by decide, by decide, claim_C5.2.2.1 test_P1 test_polls_ack0 0 0 (by decide) (by decide)⟩

/-- Claim C6: with `max_num_attempts = 1` and a transport that never returns a
packet, the master run transmits packet 0 exactly once (one attempt, not
acknowledged), bails, and ends with `num_bytes_received = 0` and no later id
attempted. -/
theorem claim_C6 (P : Params) (polls : Nat → RxPacket)
    (hmax : P.max_num_attempts = 1) (hnp : 0 < P.num_packets)
    (hnone : ∀ i, (polls i).packet_received = false) :
    master_node_loop P polls 0 0 = ⟨[⟨0, 1, false⟩], 0, true⟩ := by
  have hacc : ∀ n, master_accept (polls n) 0 = false := by
    intro n
    simp [master_accept, hnone n]
  have h1 : await_ack_loop P polls 0 0 0
      = (0 + (P.ack_timeout + P.timespec - 1) / P.timespec, false) := by
    have h := await_ack_loop_timeout P polls 0 P.ack_timeout 0 0 (by omega)
      (fun j _ => hacc (0 + j))
    simpa using h
  have h2 : tx_attempt_loop P polls 0 0 0
      = (0 + (P.ack_timeout + P.timespec - 1) / P.timespec, 1, false) := by
    rw [tx_attempt_loop, h1]
    simp only []
    rw [dif_neg (by omega : ¬ 0 + 1 < P.max_num_attempts)]
  rw [master_node_loop, if_pos hnp, h2]
  simp only []
  rw [if_pos (by omega : 1 = P.max_num_attempts)]
  simp

/-- Witness for claim C6 at the concrete configuration `test_P1` with a silent
transport. -/
theorem claim_C6_witness :
    test_P1.max_num_attempts = 1 ∧ 0 < test_P1.num_packets ∧
      master_node_loop test_P1 test_polls_silent 0 0 = ⟨[⟨0, 1, false⟩], 0, true⟩ :=
  ⟨rfl, by norm_num [test_P1],
   claim_C6 test_P1 test_polls_silent rfl (by norm_num [test_P1]) (fun i => rfl)⟩

/-- Claim C7: if the transport returns no packet during the whole first await window
of packet 0 and a valid matching ACK on the first poll of the second window, the
master sends packet 0 exactly twice (the attempt counter reaches 2) and counts the
payload length into `num_bytes_received` exactly once, then completes normally
(stated for a run with `num_packets = 1`). -/
theorem claim_C7 (P : Params) (polls : Nat → RxPacket)
    (hT : 0 < P.ack_timeout) (hmax : 2 < P.max_num_attempts) (hnp : P.num_packets = 1)
    (hdrop : ∀ j, j < (P.ack_timeout + P.timespec - 1) / P.timespec →
      (polls j).packet_received = false)
    (hack : master_accept (polls ((P.ack_timeout + P.timespec - 1) / P.timespec)) 0
      = true) :
    master_node_loop P polls 0 0 = ⟨[⟨0, 2, true⟩], P.tx_payload_len, false⟩ := by
  have h1 : await_ack_loop P polls 0 0 0
      = (0 + (P.ack_timeout + P.timespec - 1) / P.timespec, false) := by
    have h := await_ack_loop_timeout P polls 0 P.ack_timeout 0 0 (by omega) ?_
    · simpa using h
    · intro j hj
      have hj2 : j < (P.ack_timeout + P.timespec - 1) / P.timespec := by
        simpa using hj
      simp [master_accept, hdrop j hj2]
  have h2 : await_ack_loop P polls 0 ((P.ack_timeout + P.timespec - 1) / P.timespec) 0
      = ((P.ack_timeout + P.timespec - 1) / P.timespec + 1, true) := by
    have h := await_ack_loop_first_accept P polls 0 0
      ((P.ack_timeout + P.timespec - 1) / P.timespec) 0
      (fun j hj => absurd hj (by omega)) (by simpa using hack) (by omega)
    simpa using h
  have h3 : tx_attempt_loop P polls 0 0 0
      = ((P.ack_timeout + P.timespec - 1) / P.timespec + 1, 2, true) := by
    rw [tx_attempt_loop, h1]
    simp only []
    rw [dif_pos (by omega : 0 + 1 < P.max_num_attempts)]
    rw [tx_attempt_loop]
    rw [show (0 : Nat) + (P.ack_timeout + P.timespec - 1) / P.timespec
      = (P.ack_timeout + P.timespec - 1) / P.timespec from by omega, h2]
  rw [master_node_loop, if_pos (by omega), h3]
  simp only []
  rw [if_neg (by omega : ¬ 2 = P.max_num_attempts)]
  rw [master_node_loop, if_neg (by omega)]
  simp

/-- Witness for claim C7 at the concrete configuration `test_P7`, where the first
window holds 2 polls and the poll after it carries the matching ACK. -/
theorem claim_C7_witness :
    master_node_loop test_P7 test_polls_dropfirst 0 0
      = ⟨[⟨0, 2, true⟩], test_P7.tx_payload_len, false⟩ :=
  claim_C7 test_P7 test_polls_dropfirst (by norm_num [test_P7]) (by norm_num [test_P7]) rfl
    (fun j hj => by
      have hj2 : j < 2 := by simpa [test_P7] using hj
      simp [test_polls_dropfirst, hj2, test_silent])
    (by show master_accept (test_polls_dropfirst 2) 0 = true
        decide)

/-- Claim C8, counterexample: the end-of-run statistics computation of the code
reaches the division with a zero divisor when the elapsed time is zero (modelled
as `none`), instead of reporting the guarded zero value described by the spec. -/
theorem claim_C8_cex :
    compute_stats 200 0 5 = none
    ∧ compute_stats_guarded 200 0 5 = some (0, 0)
    ∧ compute_stats 200 0 5 ≠ compute_stats_guarded 200 0 5 := by
  refine ⟨?_, ?_, ?_⟩ <;> decide

/-- Claim C8 as amended: the statistics computation performs the divisions
unconditionally, so a zero elapsed time reaches a division by zero; for nonzero
elapsed time and bandwidth it yields `8 * bytes / elapsed` and that rate divided
by the bandwidth. -/
theorem claim_C8 (num_bytes : Nat) (runtime bandwidth : ℚ)
    (hrt : runtime ≠ 0) (hbw : bandwidth ≠ 0) :
    compute_stats num_bytes 0 bandwidth = none
    ∧ compute_stats num_bytes runtime bandwidth
        = some (8 * num_bytes / runtime, 8 * num_bytes / runtime / bandwidth) := by
  constructor
  · simp [compute_stats, stats_div]
  · simp [compute_stats, stats_div, hrt, hbw]

/-- Witness for the amended claim C8 at a concrete nonzero elapsed time. -/
theorem claim_C8_witness :
    compute_stats 200 2 5 = some (8 * 200 / 2, 8 * 200 / 2 / 5) :=
  (claim_C8 200 2 5 (by norm_num) (by norm_num)).2

/-- Claim C9: every decoded header id is below `2 ^ 16`; the id the master encodes
into a DATA header decodes back to the id modulo `2 ^ 16`; once the outstanding id
reaches `2 ^ 16` the master id-match check can never succeed; and for a
configuration with more than `2 ^ 16` packets the slave terminal condition is
unsatisfiable (its stored id stays below `2 ^ 16`), so such runs cannot complete
normally. -/
theorem claim_C9 (P : Params) (s : SlaveState) (f : RxPacket) (tx_pid : Nat)
    (fill : Fin 8 → Fin 256)
    (hpid : 2 ^ 16 ≤ tx_pid) (hnp : 2 ^ 16 < P.num_packets)
    (hnp2 : P.num_packets < 2 ^ 32) (hs : s.rx_pid < 2 ^ 16) :
    rx_pid_of f.rx_header < 2 ^ 16
    ∧ rx_pid_of (mk_tx_header tx_pid fill) = tx_pid % 2 ^ 16
    ∧ master_accept f tx_pid = false
    ∧ (slave_step P s f fill).2.2 = false
    ∧ (slave_step P s f fill).1.rx_pid < 2 ^ 16 := by
  have hlt := rx_pid_of_lt f.rx_header
  have hterm : 2 ^ 16 ≤ slave_terminal_pid P := by
    unfold slave_terminal_pid
    omega
  refine ⟨by omega, ?_, ?_, ?_, ?_⟩
  · rw [show (2 : Nat) ^ 16 = 65536 from by norm_num]
    exact mk_tx_header_decode tx_pid fill
  · cases hM : master_accept f tx_pid with
    | false => rfl
    | true =>
      have := master_accept_pid f tx_pid hM
      omega
  · unfold slave_step
    by_cases h1 : f.rx_header_valid = true <;>
      by_cases h2 : (f.rx_header 2).val = PING_PACKET_DATA <;>
        by_cases h3 : f.rx_payload_valid = true <;>
          simp [h1, h2, h3, beq_eq_false_iff_ne] <;> omega
  · unfold slave_step
    by_cases h1 : f.rx_header_valid = true <;>
      by_cases h2 : (f.rx_header 2).val = PING_PACKET_DATA <;>
        by_cases h3 : f.rx_payload_valid = true <;>
          simp [h1, h2, h3] <;> omega

/-- Witness for claim C9 with outstanding id 70000 and a 70000-packet
configuration. -/
theorem claim_C9_witness :
    master_accept test_ack0 70000 = false
    ∧ (slave_step test_P9 ⟨0, 0⟩ test_ack0 (test_header 0 0 0)).2.2 = false :=
  ⟨(claim_C9 test_P9 ⟨0, 0⟩ test_ack0 70000 (test_header 0 0 0) (by norm_num)
      (by norm_num [test_P9]) (by norm_num [test_P9]) (by norm_num)).2.2.1,
   (claim_C9 test_P9 ⟨0, 0⟩ test_ack0 70000 (test_header 0 0 0) (by norm_num)
      (by norm_num [test_P9]) (by norm_num [test_P9]) (by norm_num)).2.2.2.1⟩

/-- Claim C10: with the source defaults the await window holds 240 polls; when no
poll is accepted the await loop performs exactly that many polls and times out;
and it exits right after the first accepted poll. -/
theorem claim_C10 :
    ((default_params.ack_timeout + default_params.timespec - 1) / default_params.timespec
      = 240)
    ∧ (∀ (P : Params) (polls : Nat → RxPacket) (tx_pid i : Nat),
        (∀ j, j < (P.ack_timeout + P.timespec - 1) / P.timespec →
          master_accept (polls (i + j)) tx_pid = false) →
        await_ack_loop P polls tx_pid i 0
          = (i + (P.ack_timeout + P.timespec - 1) / P.timespec, false))
    ∧ (∀ (P : Params) (polls : Nat → RxPacket) (tx_pid i j0 : Nat),
        (∀ j, j < j0 → master_accept (polls (i + j)) tx_pid = false) →
        master_accept (polls (i + j0)) tx_pid = true →
        j0 * P.timespec < P.ack_timeout →
        await_ack_loop P polls tx_pid i 0 = (i + j0 + 1, true)) := by
  refine ⟨by norm_num [default_params], ?_, ?_⟩
  · intro P polls tx_pid i hnone
    have h := await_ack_loop_timeout P polls tx_pid P.ack_timeout i 0 (by omega)
      (by simpa using hnone)
    simpa using h
  · intro P polls tx_pid i j0 hnone hacc hj
    exact await_ack_loop_first_accept P polls tx_pid j0 i 0 hnone hacc (by omega)

/-- Witness for claim C10: a silent transport makes the concrete await loop of
`test_P1` poll exactly twice, its window size, and time out. -/
theorem claim_C10_witness :
    (∀ j, j < (test_P1.ack_timeout + test_P1.timespec - 1) / test_P1.timespec →
      master_accept (test_polls_silent (0 + j)) 0 = false) ∧
    await_ack_loop test_P1 test_polls_silent 0 0 0
      = (0 + (test_P1.ack_timeout + test_P1.timespec - 1) / test_P1.timespec, false) :=
  ⟨fun j _ => by
    show master_accept test_silent 0 = false
    decide,
  claim_C10.2.1 test_P1 test_polls_silent 0 0 (fun j _ => by
    show master_accept test_silent 0 = false
    decide)⟩

end Ping
